import Mathlib

namespace Basalt

/-- Character lists model Rust string slices. -/
abbrev Str := List Char

/-- Coerce a Lean string literal to the character-list model. -/
def str (s : String) : Str := s.data

/-- Boolean test that the first list is an initial segment of the second
(models Rust starts_with). -/
def isPre : Str → Str → Bool
  | [], _ => true
  | _ :: _, [] => false
  | a :: as, b :: bs => if a = b then isPre as bs else false

/-- Substring containment on character lists (models Rust str contains). -/
def containsSub (pat : Str) : Str → Bool
  | [] => isPre pat []
  | c :: t => isPre pat (c :: t) || containsSub pat t

/-- Strip an initial segment, returning the remainder when it matches
(models Rust str strip at the front). -/
def dropPre : Str → Str → Option Str
  | [], s => some s
  | _ :: _, [] => none
  | a :: as, b :: bs => if a = b then dropPre as bs else none

/-- Boolean test that the first list is a final segment of the second. -/
def isSuf (pat s : Str) : Bool := isPre pat.reverse s.reverse

/-- Index of the first occurrence of a pattern (models Rust str find). -/
def findSub (pat : Str) : Str → Option Nat
  | [] => if pat.isEmpty then some 0 else none
  | c :: t => if isPre pat (c :: t) then some 0 else (findSub pat t).map (· + 1)

/-- Fuel-indexed helper for repeated removal of a final segment. -/
def trimEndStrFuel (pat : Str) : Nat → Str → Str
  | 0, s => s
  | f + 1, s =>
      if !pat.isEmpty && isSuf pat s then trimEndStrFuel pat f (s.take (s.length - pat.length))
      else s

/-- Remove every trailing copy of a pattern (models Rust trim_end_matches
with a string pattern). -/
def trimEndStr (pat s : Str) : Str := trimEndStrFuel pat s.length s

/-- Remove every trailing copy of a character (models Rust trim_end_matches
with a char pattern). -/
def trimEndChar (c : Char) (s : Str) : Str := (s.reverse.dropWhile (fun x => x = c)).reverse

/-- Characters before the first occurrence of a separator; the whole list when
the separator is absent (models split followed by next on the iterator). -/
def takeUntil (c : Char) (s : Str) : Str := s.takeWhile (fun x => x ≠ c)

/-- Split at every occurrence of a separator character (models Rust split). -/
def splitOnChar (c : Char) : Str → List Str
  | [] => [[]]
  | x :: t =>
      if x = c then [] :: splitOnChar c t
      else
        match splitOnChar c t with
        | [] => [[x]]
        | h :: r => (x :: h) :: r

/-- Decimal digits of a number (models Rust to_string on an integer). -/
def natToStr (n : Nat) : Str := Nat.toDigits 10 n

/-- Parse an unsigned decimal integer; any non-numeric input is rejected
(models Rust str parse to u64, which accepts an optional leading plus sign). -/
def parseNat (s : Str) : Option Nat :=
  let digits := match s with
    | '+' :: rest => rest
    | other => other
  if digits.isEmpty || !digits.all (fun c => c.isDigit) then none
  else some (digits.foldl (fun acc c => acc * 10 + (c.toNat - 48)) 0)

/-! ## Error taxonomy (src/error.rs, the variants this layer uses) -/

/-- Errors of the basalt core (src/error.rs); only the variants reachable from
the provider layer are embedded. Each variant carries the structured fields of
the source; display-formatting of messages is kept as the carried fields. -/
inductive BasaltError where
  | ProviderAuthRequired (provider : Str) (auth_command : Str)
  | ProviderDetectionFailed (remote_url : Str)
  | UnknownProvider (provider : Str)
  | ProviderOperationFailed (message : Str)
  | ReviewNotFound (branch : Str)
  | Config (message : Str)
deriving DecidableEq, Repr

deriving instance DecidableEq for Except

/-! ## ProviderType (src/providers/mod.rs) -/

/-- Supported provider types (src/providers/mod.rs). -/
inductive ProviderType where
  | GitLab
  | GitHub
deriving DecidableEq, Repr

/-- Detect provider from a git remote URL
(ProviderType::from_remote_url, src/providers/mod.rs lines 96-106).
The source tests substring containment on the whole URL string. -/
def ProviderType.from_remote_url (url : Str) : Except BasaltError ProviderType :=
  if containsSub (str "gitlab.com") url || containsSub (str "gitlab") url then
    .ok .GitLab
  else if containsSub (str "github.com") url then
    .ok .GitHub
  else
    .error (.ProviderDetectionFailed url)

/-- Extract the base URL from a git remote URL
(ProviderType::extract_base_url, src/providers/mod.rs lines 129-156). -/
def ProviderType.extract_base_url (remote_url : Str) : Except BasaltError Str :=
  match dropPre (str "git@") remote_url with
  | some ssh_part =>
      -- split(':').next() always yields the part before the first colon
      .ok (str "https://" ++ takeUntil ':' ssh_part)
  | none =>
      if isPre (str "https://") remote_url || isPre (str "http://") remote_url then
        let url := trimEndChar '/' (trimEndStr (str ".git") remote_url)
        match findSub (str "://") url with
        | some protoEnd =>
            let afterProto := url.drop (protoEnd + 3)
            match findSub (str "/") afterProto with
            | some pathStart =>
                .ok (url.take protoEnd ++ str "://" ++ afterProto.take pathStart)
            | none => .error (.Config (str "Unable to extract base URL from remote: " ++ remote_url))
        | none => .error (.Config (str "Unable to extract base URL from remote: " ++ remote_url))
      else .error (.Config (str "Unable to extract base URL from remote: " ++ remote_url))

/-- HTTPS branch of ProviderType::extract_project_path (src/providers/mod.rs
lines 180-196); the source falls through to this after the SSH branch. -/
def ProviderType.project_path_https (remote_url : Str) : Except BasaltError Str :=
  if isPre (str "https://") remote_url || isPre (str "http://") remote_url then
    let url := trimEndChar '/' (trimEndStr (str ".git") remote_url)
    match findSub (str "://") url with
    | some protoEnd =>
        let afterProto := url.drop (protoEnd + 3)
        match findSub (str "/") afterProto with
        | some pathStart => .ok (afterProto.drop (pathStart + 1))
        | none => .error (.Config (str "Unable to extract project path from remote: " ++ remote_url))
    | none => .error (.Config (str "Unable to extract project path from remote: " ++ remote_url))
  else .error (.Config (str "Unable to extract project path from remote: " ++ remote_url))

/-- Extract the project path from a git remote URL
(ProviderType::extract_project_path, src/providers/mod.rs lines 172-197).
When the SSH branch does not produce a value the source continues with the
HTTPS branch. -/
def ProviderType.extract_project_path (remote_url : Str) : Except BasaltError Str :=
  match dropPre (str "git@") remote_url with
  | some ssh_part =>
      match (splitOnChar ':' ssh_part).get? 1 with
      | some path => .ok (trimEndStr (str ".git") path)
      | none => ProviderType.project_path_https remote_url
  | none => ProviderType.project_path_https remote_url

/-! ## GitLab REST API client (src/providers/gitlab_api.rs) -/

/-- GitLab API errors (GitLabError, src/providers/gitlab_api.rs lines 42-75).
RequestFailed carries the transport-error text; variants wrapping foreign
error types carry their message. -/
inductive GitLabError where
  | RequestFailed (message : Str)
  | JsonParseFailed (message : Str)
  | AuthenticationFailed
  | MissingScope (required : Str)
  | NoTokenAvailable
  | MergeRequestNotFound (iid : Nat)
  | ApiError (status : Nat) (message : Str)
  | Other (message : Str)
deriving DecidableEq, Repr

/-- GitLab user information (GitLabUser, src/providers/gitlab_api.rs). -/
structure GitLabUser where
  id : Nat
  username : Str
  name : Str
deriving DecidableEq, Repr

/-- GitLab personal access token information (GitLabToken). -/
structure GitLabToken where
  scopes : List Str
  active : Bool
deriving DecidableEq, Repr

/-- GitLab merge request response payload (MergeRequest). -/
structure MergeRequest where
  iid : Nat
  id : Nat
  title : Str
  description : Option Str
  state : Str
  web_url : Str
  source_branch : Str
  target_branch : Str
  draft : Bool
deriving DecidableEq, Repr

/-- Parameters serialized for PUT on a merge request
(UpdateMergeRequestParams, src/providers/gitlab_api.rs lines 131-141).
Every field carries the serde attribute skip_serializing_if Option::is_none. -/
structure UpdateMergeRequestParams where
  title : Option Str
  description : Option Str
  target_branch : Option Str
  draft : Option Bool
deriving DecidableEq, Repr

/-- Field names present in the serialized JSON body of an update request:
serde omits exactly the fields that are none. -/
def UpdateMergeRequestParams.serializedFields (p : UpdateMergeRequestParams) : List Str :=
  (if p.title.isSome then [str "title"] else [])
    ++ (if p.description.isSome then [str "description"] else [])
    ++ (if p.target_branch.isSome then [str "target_branch"] else [])
    ++ (if p.draft.isSome then [str "draft"] else [])

/-- Outcome of one HTTP exchange: either the transport fails (reqwest error)
or a response arrives with a status, a raw body, and the payload the body
decodes to, when it decodes. -/
inductive ApiOutcome (α : Type) where
  | netErr (message : Str)
  | resp (status : Nat) (body : Str) (parsed : Option α)
deriving DecidableEq, Repr

/-- Status in the HTTP success range (reqwest StatusCode::is_success). -/
def isSuccessStatus (status : Nat) : Bool := 200 ≤ status && status < 300

/-- External world of GitLabClient::authenticate: the two verification
endpoints keyed by the token sent, and the result of each credential source
(try_glab_token, try_git_credential, try_cli_auth, prompt_for_token), each of
which fails soft by returning none. -/
structure GitLabEnv where
  userEndpoint : Str → ApiOutcome GitLabUser
  tokenEndpoint : Str → ApiOutcome GitLabToken
  glabConfigToken : Option Str
  gitCredentialToken : Option Str
  cliAuthToken : Option Str
  promptToken : Option Str

/-- The four external credential sources of the probe chain, in source order
(GitLabClient::authenticate, src/providers/gitlab_api.rs lines 211-216). -/
inductive TokenSource where
  | glabConfig
  | gitCredential
  | cliAuth
  | promptPat
deriving DecidableEq, Repr

/-- Verify authentication by calling GET /user
(GitLabClient::verify_auth, src/providers/gitlab_api.rs lines 227-245). -/
def GitLabClient.verify_auth (env : GitLabEnv) (token : Option Str) :
    Except GitLabError GitLabUser :=
  match token with
  | none => .error .NoTokenAvailable
  | some t =>
      match env.userEndpoint t with
      | .netErr m => .error (.RequestFailed m)
      | .resp status body parsed =>
          if status = 401 then .error .AuthenticationFailed
          else if !isSuccessStatus status then .error (.RequestFailed body)
          else
            match parsed with
            | some user => .ok user
            | none => .error (.JsonParseFailed body)

/-- Verify the token has the required scopes via the token-introspection
endpoint (GitLabClient::verify_token_scopes, src/providers/gitlab_api.rs
lines 251-282): the scope list must contain "api" and the token must be
active. -/
def GitLabClient.verify_token_scopes (env : GitLabEnv) (token : Option Str) :
    Except GitLabError Unit :=
  match token with
  | none => .error .NoTokenAvailable
  | some t =>
      match env.tokenEndpoint t with
      | .netErr m => .error (.RequestFailed m)
      | .resp status body parsed =>
          if status = 401 then .error .AuthenticationFailed
          else if !isSuccessStatus status then .error (.RequestFailed body)
          else
            match parsed with
            | none => .error (.JsonParseFailed body)
            | some info =>
                if !info.scopes.contains (str "api") then
                  .error (.MissingScope (str "api"))
                else if !info.active then .error .AuthenticationFailed
                else .ok ()

/-- Verification of an already-held token inside authenticate:
verify_token_scopes().and_then(verify_auth()) on src line 201. -/
def GitLabClient.verifyCached (env : GitLabEnv) (t : Str) : Except GitLabError GitLabUser :=
  (GitLabClient.verify_token_scopes env (some t)).bind fun _ =>
    GitLabClient.verify_auth env (some t)

/-- The lazy or_else chain over the four credential sources (src lines
211-216), recording which sources were invoked, in order. A later source runs
only when every earlier one returned none. -/
def tryTokenSources (env : GitLabEnv) : Option Str × List TokenSource :=
  match env.glabConfigToken with
  | some t => (some t, [.glabConfig])
  | none =>
      match env.gitCredentialToken with
      | some t => (some t, [.glabConfig, .gitCredential])
      | none =>
          match env.cliAuthToken with
          | some t => (some t, [.glabConfig, .gitCredential, .cliAuth])
          | none =>
              match env.promptToken with
              | some t => (some t, [.glabConfig, .gitCredential, .cliAuth, .promptPat])
              | none => (none, [.glabConfig, .gitCredential, .cliAuth, .promptPat])

/-- Observable outcome of one run of GitLabClient::authenticate: the returned
value, the client token field afterwards, the credential sources invoked, and
how many times the probe chain was consulted. -/
structure AuthOutcome where
  result : Except GitLabError GitLabUser
  token : Option Str
  probed : List TokenSource
  probeRuns : Nat
deriving DecidableEq, Repr

/-- The probe-then-verify path of authenticate (src lines 210-223): consult
the chain once; with no candidate fail with NoTokenAvailable; otherwise store
the candidate, then verify scopes, then identity. On a verification error the
error is returned (the candidate stays in the token field). -/
def GitLabClient.authenticateFresh (env : GitLabEnv) : AuthOutcome :=
  match tryTokenSources env with
  | (none, tr) => ⟨.error .NoTokenAvailable, none, tr, 1⟩
  | (some t, tr) =>
      match GitLabClient.verify_token_scopes env (some t) with
      | .error e => ⟨.error e, some t, tr, 1⟩
      | .ok _ =>
          match GitLabClient.verify_auth env (some t) with
          | .error e => ⟨.error e, some t, tr, 1⟩
          | .ok user => ⟨.ok user, some t, tr, 1⟩

/-- GitLabClient::authenticate (src/providers/gitlab_api.rs lines 198-224),
as a function of the client token field and the environment. A held token is
verified first; on success the chain is never consulted; on failure the token
is cleared and the probe path runs. -/
def GitLabClient.authenticate (env : GitLabEnv) (token : Option Str) : AuthOutcome :=
  match token with
  | some t =>
      match GitLabClient.verifyCached env t with
      | .ok user => ⟨.ok user, some t, [], 0⟩
      | .error _ => GitLabClient.authenticateFresh env
  | none => GitLabClient.authenticateFresh env

/-- GitLabClient::get_merge_request (src/providers/gitlab_api.rs lines
550-583), as a function of the held token and the HTTP exchange for the
specific-review endpoint: 404 is mapped to MergeRequestNotFound with the
requested iid before the generic non-success check. -/
def GitLabClient.get_merge_request (token : Option Str)
    (resp : ApiOutcome MergeRequest) (mr_iid : Nat) : Except GitLabError MergeRequest :=
  match token with
  | none => .error .NoTokenAvailable
  | some _ =>
      match resp with
      | .netErr m => .error (.RequestFailed m)
      | .resp status body parsed =>
          if status = 404 then .error (.MergeRequestNotFound mr_iid)
          else if !isSuccessStatus status then .error (.ApiError status body)
          else
            match parsed with
            | some mr => .ok mr
            | none => .error (.JsonParseFailed body)

/-- Fixture user for concrete environments. -/
def testUser : GitLabUser := ⟨7, str "alice", str "Alice"⟩

/-- Fixture environment: every credential source abstains, endpoints accept. -/
def envAbstain : GitLabEnv :=
  { userEndpoint := fun _ => .resp 200 (str "") (some testUser)
    tokenEndpoint := fun _ => .resp 200 (str "") (some ⟨[str "api"], true⟩)
    glabConfigToken := none
    gitCredentialToken := none
    cliAuthToken := none
    promptToken := none }

/-- Fixture environment: the first two sources hold tokens. -/
def envFirstTwo : GitLabEnv :=
  { envAbstain with
      glabConfigToken := some (str "tokA")
      gitCredentialToken := some (str "tokB") }

/-- Fixture environment: introspection rejects every token except "new" with
401, and the config source holds "new" with full scope. -/
def envRecover : GitLabEnv :=
  { userEndpoint := fun _ => .resp 200 (str "") (some testUser)
    tokenEndpoint := fun t =>
      if t = str "new" then .resp 200 (str "") (some ⟨[str "api"], true⟩)
      else .resp 401 (str "") none
    glabConfigToken := some (str "new")
    gitCredentialToken := none
    cliAuthToken := none
    promptToken := none }

/-- Fixture environment: the config token authenticates on the identity
endpoint but its introspection carries only the read_api scope. -/
def envNoScope : GitLabEnv :=
  { userEndpoint := fun _ => .resp 200 (str "") (some testUser)
    tokenEndpoint := fun _ => .resp 200 (str "") (some ⟨[str "read_api"], true⟩)
    glabConfigToken := some (str "t1")
    gitCredentialToken := none
    cliAuthToken := none
    promptToken := none }

/-! ## Provider data model (src/providers/mod.rs) -/

/-- State of a code review (ReviewState, src/providers/mod.rs). -/
inductive ReviewState where
  | Open
  | Merged
  | Closed
deriving DecidableEq, Repr

/-- A code review (Review, src/providers/mod.rs lines 210-228). -/
structure Review where
  id : Str
  url : Str
  title : Str
  description : Option Str
  source_branch : Str
  target_branch : Str
  draft : Bool
  state : ReviewState
deriving DecidableEq, Repr

/-- Parameters for creating a review (CreateReviewParams). -/
structure CreateReviewParams where
  source_branch : Str
  target_branch : Str
  title : Str
  description : Option Str
  draft : Bool
deriving DecidableEq, Repr

/-- Parameters for updating a review (UpdateReviewParams); optional fields
express leave-unchanged. -/
structure UpdateReviewParams where
  review_id : Str
  title : Option Str
  description : Option Str
  target_branch : Option Str
  draft : Option Bool
deriving DecidableEq, Repr

/-! ## GitLab provider (src/providers/gitlab.rs) -/

/-- State of a GitLabProvider (src/providers/gitlab.rs lines 22-29): the
client with its token field, the optional project path, and the
authenticated flag. -/
structure GitLabProvider where
  token : Option Str
  project_path : Option Str
  authenticated : Bool
deriving Repr

/-- Convert a GitLab MR state string to ReviewState
(GitLabProvider::parse_review_state, src/providers/gitlab.rs lines 70-77):
unknown states default to Open. -/
def GitLabProvider.parse_review_state (state : Str) : ReviewState :=
  if state = str "opened" then .Open
  else if state = str "closed" then .Closed
  else if state = str "merged" then .Merged
  else .Open

/-- Convert a GitLab merge request to a Review
(GitLabProvider::mr_to_review, src/providers/gitlab.rs lines 80-91). -/
def GitLabProvider.mr_to_review (mr : MergeRequest) : Review :=
  { id := natToStr mr.iid
    title := mr.title
    description := mr.description
    state := GitLabProvider.parse_review_state mr.state
    url := mr.web_url
    source_branch := mr.source_branch
    target_branch := mr.target_branch
    draft := mr.draft }

/-- Display text of a GitLabError (the thiserror attributes of
src/providers/gitlab_api.rs lines 42-75; punctuation simplified). -/
def GitLabError.message : GitLabError → Str
  | .RequestFailed m => str "HTTP request failed: " ++ m
  | .JsonParseFailed m => str "Failed to parse JSON response: " ++ m
  | .AuthenticationFailed => str "Authentication failed: Invalid or expired token"
  | .MissingScope required =>
      str "Token is missing required scope: " ++ required
        ++ str ". Please create a token with that scope at https://gitlab.com/-/profile/personal_access_tokens"
  | .NoTokenAvailable => str "No authentication token available. Please authenticate."
  | .MergeRequestNotFound iid => str "Merge request not found: !" ++ natToStr iid
  | .ApiError status m => str "API error (" ++ natToStr status ++ str "): " ++ m
  | .Other m => m

/-- GitLabProvider::check_authentication (src/providers/gitlab.rs lines
123-132): reports the state of the authenticated flag only. -/
def GitLabProvider.check_authentication (p : GitLabProvider) : Except BasaltError Unit :=
  if p.authenticated then .ok ()
  else .error (.ProviderAuthRequired (str "GitLab") (str "Run bt init or authenticate manually"))

/-- GitLabProvider::authenticate (src/providers/gitlab.rs lines 134-149):
delegate to the client; on client failure wrap the error into
ProviderAuthRequired and leave the authenticated flag as it was; on success
set it. The token field always ends as the client left it. -/
def GitLabProvider.authenticate (env : GitLabEnv) (p : GitLabProvider) :
    Except BasaltError Unit × GitLabProvider :=
  let a := GitLabClient.authenticate env p.token
  match a.result with
  | .error e =>
      (.error (.ProviderAuthRequired (str "GitLab")
          (str "Authentication failed: " ++ GitLabError.message e
            ++ str "\nCreate a Personal Access Token at https://gitlab.com/-/profile/personal_access_tokens")),
        { p with token := a.token })
  | .ok _ => (.ok (), { p with token := a.token, authenticated := true })

/-- Request construction of GitLabProvider::update_review
(src/providers/gitlab.rs lines 169-191): the project path must be set, the
review id must parse as an integer, and the outgoing
UpdateMergeRequestParams copies title, description and target_branch from the
call parameters while draft is always none (the source comment: draft status
is not updated during regular updates). -/
def GitLabProvider.update_review_request (p : GitLabProvider) (params : UpdateReviewParams) :
    Except BasaltError (Str × Nat × UpdateMergeRequestParams) :=
  match p.project_path with
  | none => .error (.ProviderOperationFailed (str "Project path not set"))
  | some path =>
      match parseNat params.review_id with
      | none => .error (.ProviderOperationFailed (str "Invalid MR ID: " ++ params.review_id))
      | some mr_iid =>
          .ok (path, mr_iid,
            { title := params.title
              description := params.description
              target_branch := params.target_branch
              draft := none })

/-! ## Mock provider (src/providers/mock.rs) -/

/-- Lookup in an association list modelling a HashMap keyed by strings. -/
def alLookup (k : Str) : List (Str × α) → Option α
  | [] => none
  | (k2, v) :: t => if k2 = k then some v else alLookup k t

/-- Replace the value at a key in an association list (HashMap get_mut). -/
def alSet (k : Str) (v : α) : List (Str × α) → List (Str × α)
  | [] => []
  | (k2, v2) :: t => if k2 = k then (k2, v) :: t else (k2, v2) :: alSet k v t

/-- Internal state of the mock provider (MockProviderState,
src/providers/mock.rs lines 27-43); the HashMaps are modelled as association
lists whose newest entry wins on lookup. -/
structure MockProviderState where
  reviews : List (Str × Review)
  branch_to_review : List (Str × Str)
  next_id : Nat
  cli_available : Bool
  authenticated : Bool
  should_fail_create : Bool
  should_fail_update : Bool
  should_fail_get : Bool
deriving DecidableEq, Repr

/-- MockProvider::new (src/providers/mock.rs lines 47-57). -/
def MockProvider.new : MockProviderState :=
  { reviews := []
    branch_to_review := []
    next_id := 1
    cli_available := true
    authenticated := true
    should_fail_create := false
    should_fail_update := false
    should_fail_get := false }

/-- MockProvider::fail_next_create. -/
def MockProvider.fail_next_create (st : MockProviderState) : MockProviderState :=
  { st with should_fail_create := true }

/-- MockProvider::fail_next_update. -/
def MockProvider.fail_next_update (st : MockProviderState) : MockProviderState :=
  { st with should_fail_update := true }

/-- MockProvider::fail_next_get. -/
def MockProvider.fail_next_get (st : MockProviderState) : MockProviderState :=
  { st with should_fail_get := true }

/-- MockProvider::next_review_id (src/providers/mock.rs lines 119-127). -/
def MockProvider.next_review_id (pt : ProviderType) (st : MockProviderState) :
    Str × MockProviderState :=
  let id := st.next_id
  let st := { st with next_id := id + 1 }
  match pt with
  | .GitLab => ('!' :: natToStr id, st)
  | .GitHub => (natToStr id, st)

/-- MockProvider::create_review (src/providers/mock.rs lines 160-198): a
one-shot failure flag that resets itself, then id assignment, review
construction, and insertion into both maps. -/
def MockProvider.create_review (pt : ProviderType) (st : MockProviderState)
    (params : CreateReviewParams) : Except BasaltError Review × MockProviderState :=
  if st.should_fail_create then
    (.error (.ProviderOperationFailed (str "Simulated create failure")),
      { st with should_fail_create := false })
  else
    let (review_id, st) := MockProvider.next_review_id pt st
    let url := match pt with
      | .GitLab =>
          str "https://gitlab.com/mock/repo/-/merge_requests/"
            ++ review_id.dropWhile (fun c => c = '!')
      | .GitHub => str "https://github.com/mock/repo/pull/" ++ review_id
    let review : Review :=
      { id := review_id
        url := url
        title := params.title
        description := params.description
        source_branch := params.source_branch
        target_branch := params.target_branch
        draft := params.draft
        state := .Open }
    (.ok review,
      { st with
          reviews := (review_id, review) :: st.reviews
          branch_to_review := (params.source_branch, review_id) :: st.branch_to_review })

/-- MockProvider::update_review (src/providers/mock.rs lines 200-230): a
one-shot failure flag that resets itself; a missing id is ReviewNotFound;
each optional field overwrites the stored review only when present. -/
def MockProvider.update_review (st : MockProviderState) (params : UpdateReviewParams) :
    Except BasaltError Review × MockProviderState :=
  if st.should_fail_update then
    (.error (.ProviderOperationFailed (str "Simulated update failure")),
      { st with should_fail_update := false })
  else
    match alLookup params.review_id st.reviews with
    | none => (.error (.ReviewNotFound params.review_id), st)
    | some review =>
        let review := match params.title with
          | some title => { review with title := title }
          | none => review
        let review := match params.description with
          | some description => { review with description := some description }
          | none => review
        let review := match params.target_branch with
          | some target_branch => { review with target_branch := target_branch }
          | none => review
        let review := match params.draft with
          | some draft => { review with draft := draft }
          | none => review
        (.ok review, { st with reviews := alSet params.review_id review st.reviews })

/-- MockProvider::get_review (src/providers/mock.rs lines 232-247): the
method takes the state immutably, and the source notes that the failure flag
is therefore not reset on the failure path. -/
def MockProvider.get_review (st : MockProviderState) (review_id : Str) :
    Except BasaltError Review :=
  if st.should_fail_get then .error (.ProviderOperationFailed (str "Simulated get failure"))
  else
    match alLookup review_id st.reviews with
    | some r => .ok r
    | none => .error (.ReviewNotFound review_id)

/-- MockProvider::find_review_for_branch (src/providers/mock.rs lines
249-257). -/
def MockProvider.find_review_for_branch (st : MockProviderState) (branch : Str) :
    Except BasaltError (Option Review) :=
  match alLookup branch st.branch_to_review with
  | some review_id => .ok (alLookup review_id st.reviews)
  | none => .ok none

/-- Fixture create parameters for the mock provider. -/
def mockParamsA : CreateReviewParams :=
  ⟨str "feature", str "main", str "Test MR", some (str "d"), true⟩

/-- Mock state after one successful create on a fresh GitLab mock. -/
def mockStCreated : MockProviderState :=
  (MockProvider.create_review .GitLab MockProvider.new mockParamsA).2

/-- The review that create assigns for mockParamsA on a fresh mock. -/
def mockReviewA : Review :=
  ⟨str "!1", str "https://gitlab.com/mock/repo/-/merge_requests/1", str "Test MR",
    some (str "d"), str "feature", str "main", true, .Open⟩

/-- Mock state with the one-shot get failure armed. -/
def mockStArmed : MockProviderState := MockProvider.fail_next_get mockStCreated

/-! ## Shared lemmas -/

theorem isPre_trans {p q s : Str} (h1 : isPre p q = true) (h2 : isPre q s = true) :
    isPre p s = true := by
  induction p generalizing q s with
  | nil => rfl
  | cons a as ih =>
      cases q with
      | nil => simp [isPre] at h1
      | cons b bs =>
          cases s with
          | nil => simp [isPre] at h2
          | cons c cs =>
              simp only [isPre] at h1 h2 ⊢
              by_cases hab : a = b
              · subst hab
                rw [if_pos rfl] at h1
                by_cases hac : a = c
                · subst hac
                  rw [if_pos rfl] at h2 ⊢
                  exact ih h1 h2
                · rw [if_neg hac] at h2
                  exact absurd h2 (by simp)
              · rw [if_neg hab] at h1
                exact absurd h1 (by simp)

theorem containsSub_mono {p q : Str} (hpq : isPre p q = true) :
    ∀ hay, containsSub q hay = true → containsSub p hay = true := by
  intro hay
  induction hay with
  | nil =>
      intro h
      simp only [containsSub] at h ⊢
      cases q with
      | nil =>
          cases p with
          | nil => rfl
          | cons a as => simp [isPre] at hpq
      | cons b bs => simp [isPre] at h
  | cons c t ih =>
      intro h
      simp only [containsSub, Bool.or_eq_true] at h ⊢
      rcases h with h | h
      · exact Or.inl (isPre_trans hpq h)
      · exact Or.inr (ih h)

/-! ## Claim theorems -/

/-- C10: every review-state string other than exactly "opened", "closed" or
"merged" is converted to Open by the GitLab provider, both by
parse_review_state directly and through mr_to_review. -/
theorem claimC10 (mr : MergeRequest) (h1 : mr.state ≠ str "opened")
    (h2 : mr.state ≠ str "closed") (h3 : mr.state ≠ str "merged") :
    GitLabProvider.parse_review_state mr.state = .Open ∧
    (GitLabProvider.mr_to_review mr).state = .Open := by
  have hp : GitLabProvider.parse_review_state mr.state = .Open := by
    simp [GitLabProvider.parse_review_state, h1, h2, h3]
  exact ⟨hp, by simp [GitLabProvider.mr_to_review, hp]⟩

/-- Witness for C10 at the concrete GitLab state string "locked". -/
theorem claimC10_witness :
    GitLabProvider.parse_review_state (str "locked") = .Open ∧
    (GitLabProvider.mr_to_review
      { iid := 3, id := 5, title := str "t", description := none, state := str "locked",
        web_url := str "u", source_branch := str "a", target_branch := str "b",
        draft := false }).state = .Open :=
  claimC10
    { iid := 3, id := 5, title := str "t", description := none, state := str "locked",
      web_url := str "u", source_branch := str "a", target_branch := str "b", draft := false }
    (by decide) (by decide) (by decide)

/-- C5: on the specific-review endpoint a 404 response is mapped to
MergeRequestNotFound carrying the requested iid, any other non-success status
is mapped to ApiError carrying that status and the body, and the two error
kinds are distinct. -/
theorem claimC5 (token : Str) (mr_iid status : Nat) (body : Str)
    (parsed : Option MergeRequest) :
    (status = 404 →
      GitLabClient.get_merge_request (some token) (.resp status body parsed) mr_iid
        = .error (.MergeRequestNotFound mr_iid)) ∧
    (status ≠ 404 → isSuccessStatus status = false →
      GitLabClient.get_merge_request (some token) (.resp status body parsed) mr_iid
        = .error (.ApiError status body)) ∧
    (∀ i s b, (GitLabError.MergeRequestNotFound i) ≠ GitLabError.ApiError s b) := by
  refine ⟨?_, ?_, ?_⟩
  · intro h
    subst h
    simp [GitLabClient.get_merge_request]
  · intro h hs
    simp [GitLabClient.get_merge_request, h, hs]
  · intro i s b
    simp

/-- Witness for C5: native id 42 with a 404 response, and a 500 response. -/
theorem claimC5_witness :
    GitLabClient.get_merge_request (some (str "tok")) (.resp 404 (str "") none) 42
      = .error (.MergeRequestNotFound 42) ∧
    GitLabClient.get_merge_request (some (str "tok")) (.resp 500 (str "boom") none) 42
      = .error (.ApiError 500 (str "boom")) :=
  ⟨(claimC5 (str "tok") 42 404 (str "") none).1 rfl,
   (claimC5 (str "tok") 42 500 (str "boom") none).2.1 (by decide) (by decide)⟩

/-- Counterexample for C2: a params record whose draft field is present is
turned into a request whose serialized body omits draft, because
GitLabProvider::update_review always passes draft as none. -/
theorem claimC2_counterexample :
    GitLabProvider.update_review_request
        (⟨none, some (str "o/r"), false⟩ : GitLabProvider)
        (⟨str "7", none, none, none, some true⟩ : UpdateReviewParams)
      = .ok (str "o/r", 7, (⟨none, none, none, none⟩ : UpdateMergeRequestParams)) ∧
    (some true : Option Bool).isSome = true ∧
    ¬ (str "draft") ∈
      (⟨none, none, none, none⟩ : UpdateMergeRequestParams).serializedFields := by
  refine ⟨by decide, rfl, ?_⟩
  simp [UpdateMergeRequestParams.serializedFields]

/-- C2 amended: for update-review, the title, description and target_branch
fields are sent if and only if present in the params, but the draft field is
never sent, regardless of its presence in the params. -/
theorem claimC2_amended (p : GitLabProvider) (params : UpdateReviewParams)
    (path : Str) (mr_iid : Nat)
    (hPath : p.project_path = some path)
    (hId : parseNat params.review_id = some mr_iid) :
    GitLabProvider.update_review_request p params
      = .ok (path, mr_iid,
          (⟨params.title, params.description, params.target_branch, none⟩ :
            UpdateMergeRequestParams)) ∧
    ((str "title") ∈ (⟨params.title, params.description, params.target_branch, none⟩ :
        UpdateMergeRequestParams).serializedFields
      ↔ params.title.isSome = true) ∧
    ((str "description") ∈ (⟨params.title, params.description, params.target_branch, none⟩ :
        UpdateMergeRequestParams).serializedFields
      ↔ params.description.isSome = true) ∧
    ((str "target_branch") ∈ (⟨params.title, params.description, params.target_branch, none⟩ :
        UpdateMergeRequestParams).serializedFields
      ↔ params.target_branch.isSome = true) ∧
    ¬ (str "draft") ∈ (⟨params.title, params.description, params.target_branch, none⟩ :
        UpdateMergeRequestParams).serializedFields := by
  refine ⟨by simp [GitLabProvider.update_review_request, hPath, hId], ?_, ?_, ?_, ?_⟩ <;>
    rcases params with ⟨rid, title, description, target_branch, draft⟩ <;>
    cases title <;> cases description <;> cases target_branch <;>
    simp [UpdateMergeRequestParams.serializedFields] <;> decide

/-- Witness for C2 amended at a concrete params record with title and
target_branch present. -/
theorem claimC2_amended_witness :
    GitLabProvider.update_review_request
        (⟨none, some (str "o/r"), true⟩ : GitLabProvider)
        (⟨str "12", some (str "T"), none, some (str "main"), some false⟩ : UpdateReviewParams)
      = .ok (str "o/r", 12,
          (⟨some (str "T"), none, some (str "main"), none⟩ : UpdateMergeRequestParams)) :=
  (claimC2_amended
    (⟨none, some (str "o/r"), true⟩ : GitLabProvider)
    (⟨str "12", some (str "T"), none, some (str "main"), some false⟩ : UpdateReviewParams)
    (str "o/r") 12 rfl (by decide)).1

theorem authenticateFresh_probeRuns (env : GitLabEnv) :
    (GitLabClient.authenticateFresh env).probeRuns = 1 := by
  unfold GitLabClient.authenticateFresh
  rcases htr : tryTokenSources env with ⟨tok, tr⟩
  cases tok with
  | none => rfl
  | some t =>
      dsimp only
      cases GitLabClient.verify_token_scopes env (some t) with
      | error e => rfl
      | ok u =>
          cases GitLabClient.verify_auth env (some t) with
          | error e => rfl
          | ok user => rfl

/-- C3: the probe chain consults its four sources in the fixed order, first
success wins, later sources are never invoked after one yields, the winning
token becomes the candidate of authenticate, and when all four sources
abstain authenticate fails with NoTokenAvailable. -/
theorem claimC3 (env : GitLabEnv) (t : Str) (tr : List TokenSource) :
    (env.glabConfigToken = some t →
      tryTokenSources env = (some t, [.glabConfig])) ∧
    (env.glabConfigToken = none → env.gitCredentialToken = some t →
      tryTokenSources env = (some t, [.glabConfig, .gitCredential])) ∧
    (env.glabConfigToken = none → env.gitCredentialToken = none →
      env.cliAuthToken = some t →
      tryTokenSources env = (some t, [.glabConfig, .gitCredential, .cliAuth])) ∧
    (env.glabConfigToken = none → env.gitCredentialToken = none →
      env.cliAuthToken = none → env.promptToken = some t →
      tryTokenSources env
        = (some t, [.glabConfig, .gitCredential, .cliAuth, .promptPat])) ∧
    (tryTokenSources env = (some t, tr) →
      (GitLabClient.authenticate env none).token = some t ∧
      (GitLabClient.authenticate env none).probed = tr) ∧
    (env.glabConfigToken = none → env.gitCredentialToken = none →
      env.cliAuthToken = none → env.promptToken = none →
      GitLabClient.authenticate env none
        = ⟨.error .NoTokenAvailable, none,
            [.glabConfig, .gitCredential, .cliAuth, .promptPat], 1⟩) := by
  refine ⟨?_, ?_, ?_, ?_, ?_, ?_⟩
  · intro h1
    simp [tryTokenSources, h1]
  · intro h1 h2
    simp [tryTokenSources, h1, h2]
  · intro h1 h2 h3
    simp [tryTokenSources, h1, h2, h3]
  · intro h1 h2 h3 h4
    simp [tryTokenSources, h1, h2, h3, h4]
  · intro h
    show (GitLabClient.authenticateFresh env).token = some t ∧
      (GitLabClient.authenticateFresh env).probed = tr
    unfold GitLabClient.authenticateFresh
    rw [h]
    dsimp only
    cases GitLabClient.verify_token_scopes env (some t) with
    | error e => exact ⟨rfl, rfl⟩
    | ok u =>
        cases GitLabClient.verify_auth env (some t) with
        | error e => exact ⟨rfl, rfl⟩
        | ok user => exact ⟨rfl, rfl⟩
  · intro h1 h2 h3 h4
    show GitLabClient.authenticateFresh env = _
    unfold GitLabClient.authenticateFresh
    simp [tryTokenSources, h1, h2, h3, h4]

/-- Witness for C3: with tokens in the first two sources only the first is
taken, and with no sources at all authenticate fails with NoTokenAvailable. -/
theorem claimC3_witness :
    tryTokenSources envFirstTwo = (some (str "tokA"), [.glabConfig]) ∧
    GitLabClient.authenticate envAbstain none
      = ⟨.error .NoTokenAvailable, none,
          [.glabConfig, .gitCredential, .cliAuth, .promptPat], 1⟩ :=
  ⟨(claimC3 envFirstTwo (str "tokA") []).1 rfl,
   (claimC3 envAbstain (str "tokA") []).2.2.2.2.2 rfl rfl rfl rfl⟩

/-- C4: when authenticate is called while a credential is held and the cached
verification fails, the run coincides with a fresh run that starts with no
credential: the cache is discarded, the probe chain is consulted exactly
once, and an error reaches the caller exactly when that single fresh attempt
fails. -/
theorem claimC4 (env : GitLabEnv) (t : Str) (e : GitLabError)
    (h : GitLabClient.verifyCached env t = .error e) :
    GitLabClient.authenticate env (some t) = GitLabClient.authenticateFresh env ∧
    (GitLabClient.authenticate env (some t)).probeRuns = 1 ∧
    (GitLabClient.authenticate env (some t)).result
      = (GitLabClient.authenticate env none).result := by
  have h1 : GitLabClient.authenticate env (some t) = GitLabClient.authenticateFresh env := by
    simp [GitLabClient.authenticate, h]
  exact ⟨h1, by rw [h1, authenticateFresh_probeRuns],
    by rw [h1]; rfl⟩

/-- Witness for C4: a held token rejected with 401 is discarded and the
re-probe finds a fully scoped config token, so the run succeeds. -/
theorem claimC4_witness :
    GitLabClient.verifyCached envRecover (str "old") = .error .AuthenticationFailed ∧
    GitLabClient.authenticate envRecover (some (str "old"))
      = GitLabClient.authenticateFresh envRecover ∧
    (GitLabClient.authenticate envRecover (some (str "old"))).probeRuns = 1 ∧
    (GitLabClient.authenticate envRecover (some (str "old"))).result = .ok testUser := by
  have h : GitLabClient.verifyCached envRecover (str "old")
      = .error .AuthenticationFailed := by decide
  obtain ⟨he, hp, hr⟩ := claimC4 envRecover (str "old") .AuthenticationFailed h
  refine ⟨h, he, hp, ?_⟩
  rw [hr]
  decide

/-- C1: when the probe chain yields a candidate that passes the identity
check but whose introspection lacks the api scope, authenticate fails with
MissingScope, the provider flag stays unset, and check_authentication on the
resulting provider still reports not authenticated. -/
theorem claimC1 (env : GitLabEnv) (p : GitLabProvider) (t : Str)
    (body body2 : Str) (scopes : List Str) (active : Bool) (user : GitLabUser)
    (hAuth : p.authenticated = false)
    (hTok : p.token = none)
    (hProbe : (tryTokenSources env).1 = some t)
    (hIdentity : env.userEndpoint t = .resp 200 body2 (some user))
    (hIntro : env.tokenEndpoint t = .resp 200 body (some ⟨scopes, active⟩))
    (hScope : scopes.contains (str "api") = false) :
    (GitLabClient.authenticate env p.token).result = .error (.MissingScope (str "api")) ∧
    (GitLabProvider.authenticate env p).2.authenticated = false ∧
    GitLabProvider.check_authentication (GitLabProvider.authenticate env p).2
      = .error (.ProviderAuthRequired (str "GitLab")
          (str "Run bt init or authenticate manually")) ∧
    (∃ cmd, (GitLabProvider.authenticate env p).1
      = .error (.ProviderAuthRequired (str "GitLab") cmd)) := by
  have hscopes : GitLabClient.verify_token_scopes env (some t)
      = .error (.MissingScope (str "api")) := by
    have hmem : ¬ (str "api") ∈ scopes := by simpa using hScope
    simp [GitLabClient.verify_token_scopes, hIntro, isSuccessStatus, hmem]
  have hclient : (GitLabClient.authenticate env p.token).result
      = .error (.MissingScope (str "api")) := by
    rw [hTok]
    show (GitLabClient.authenticateFresh env).result = _
    unfold GitLabClient.authenticateFresh
    have hpair : tryTokenSources env = (some t, (tryTokenSources env).2) := by
      rw [← hProbe]
    rw [hpair]
    dsimp only
    rw [hscopes]
  have hPA : GitLabProvider.authenticate env p
      = (.error (.ProviderAuthRequired (str "GitLab")
            (str "Authentication failed: "
              ++ GitLabError.message (.MissingScope (str "api"))
              ++ str "\nCreate a Personal Access Token at https://gitlab.com/-/profile/personal_access_tokens")),
          { p with token := (GitLabClient.authenticate env p.token).token }) := by
    simp only [GitLabProvider.authenticate, hclient]
  refine ⟨hclient, ?_, ?_, ?_⟩
  · rw [hPA]
    exact hAuth
  · rw [hPA]
    simp [GitLabProvider.check_authentication, hAuth]
  · exact ⟨_, by rw [hPA]⟩

/-- Witness for C1: the config token of envNoScope authenticates but lacks
the api scope; authentication fails and the provider stays unauthenticated. -/
theorem claimC1_witness :
    (GitLabClient.authenticate envNoScope none).result
      = .error (.MissingScope (str "api")) ∧
    (GitLabProvider.authenticate envNoScope ⟨none, none, false⟩).2.authenticated = false ∧
    GitLabProvider.check_authentication
        (GitLabProvider.authenticate envNoScope ⟨none, none, false⟩).2
      = .error (.ProviderAuthRequired (str "GitLab")
          (str "Run bt init or authenticate manually")) ∧
    (∃ cmd, (GitLabProvider.authenticate envNoScope ⟨none, none, false⟩).1
      = .error (.ProviderAuthRequired (str "GitLab") cmd)) :=
  claimC1 envNoScope ⟨none, none, false⟩ (str "t1") (str "") (str "")
    [str "read_api"] true testUser rfl rfl (by decide) (by decide) (by decide) (by decide)

/-- Counterexample for C6: the source tests substring containment on the
whole remote URL, so a URL whose host part (as computed by the source itself
via extract_base_url) contains neither family token is still detected as
GitLab when the token appears in the path. -/
theorem claimC6_counterexample :
    ProviderType.from_remote_url (str "https://evil.example/gitlab") = .ok .GitLab ∧
    ProviderType.extract_base_url (str "https://evil.example/gitlab")
      = .ok (str "https://evil.example") ∧
    containsSub (str "gitlab") (str "evil.example") = false ∧
    containsSub (str "github.com") (str "evil.example") = false := by decide

/-- C6 amended: for every remote URL that contains, anywhere in the URL
string, neither the token "gitlab" nor the token "github.com", detection
always fails with ProviderDetectionFailed carrying the URL verbatim. -/
theorem claimC6_amended (url : Str)
    (h1 : containsSub (str "gitlab") url = false)
    (h2 : containsSub (str "github.com") url = false) :
    ProviderType.from_remote_url url = .error (.ProviderDetectionFailed url) := by
  have h0 : containsSub (str "gitlab.com") url = false := by
    cases hc : containsSub (str "gitlab.com") url with
    | false => rfl
    | true =>
        have := containsSub_mono (p := str "gitlab") (q := str "gitlab.com") (by decide) url hc
        simp [h1] at this
  simp [ProviderType.from_remote_url, h0, h1, h2]

/-- Witness for C6 amended at a concrete unrecognized URL. -/
theorem claimC6_amended_witness :
    ProviderType.from_remote_url (str "https://example.org/team/repo.git")
      = .error (.ProviderDetectionFailed (str "https://example.org/team/repo.git")) :=
  claimC6_amended (str "https://example.org/team/repo.git") (by decide) (by decide)

/-- Counterexample for C8: after arming fail_next_get on a state holding
review !1, the get fails, and because the source method takes the state
immutably the flag is not cleared, so the immediately following call runs on
the same state and fails again instead of succeeding; clearing the flag by
hand shows the review is present. -/
theorem claimC8_counterexample :
    (MockProvider.create_review .GitLab MockProvider.new mockParamsA).1 = .ok mockReviewA ∧
    mockStArmed.should_fail_get = true ∧
    MockProvider.get_review mockStArmed (str "!1")
      = .error (.ProviderOperationFailed (str "Simulated get failure")) ∧
    MockProvider.get_review { mockStArmed with should_fail_get := false } (str "!1")
      = .ok mockReviewA := by decide

/-- C8 amended: after arming the corresponding flag, create and update fail
exactly once (the flag is consumed, and the following call on a state with
the flag down succeeds), while get fails on the armed call and on every
further call against the same state because get never clears the flag. -/
theorem claimC8_amended :
    (∀ pt st params, st.should_fail_create = true →
      (MockProvider.create_review pt st params).1
        = .error (.ProviderOperationFailed (str "Simulated create failure")) ∧
      ((MockProvider.create_review pt st params).2).should_fail_create = false) ∧
    (∀ pt st params, st.should_fail_create = false →
      ∃ r, (MockProvider.create_review pt st params).1 = .ok r) ∧
    (∀ st params, st.should_fail_update = true →
      (MockProvider.update_review st params).1
        = .error (.ProviderOperationFailed (str "Simulated update failure")) ∧
      ((MockProvider.update_review st params).2).should_fail_update = false) ∧
    (∀ st params r, st.should_fail_update = false →
      alLookup params.review_id st.reviews = some r →
      ∃ r2, (MockProvider.update_review st params).1 = .ok r2) ∧
    (∀ st id, st.should_fail_get = true →
      MockProvider.get_review st id
        = .error (.ProviderOperationFailed (str "Simulated get failure"))) ∧
    (∀ st id r, st.should_fail_get = false → alLookup id st.reviews = some r →
      MockProvider.get_review st id = .ok r) := by
  refine ⟨?_, ?_, ?_, ?_, ?_, ?_⟩
  · intro pt st params h
    exact ⟨by simp [MockProvider.create_review, h], by simp [MockProvider.create_review, h]⟩
  · intro pt st params h
    cases pt <;>
      · simp only [MockProvider.create_review, MockProvider.next_review_id, h]
        exact ⟨_, rfl⟩
  · intro st params h
    exact ⟨by simp [MockProvider.update_review, h], by simp [MockProvider.update_review, h]⟩
  · intro st params r h hlook
    simp only [MockProvider.update_review, h, hlook]
    exact ⟨_, rfl⟩
  · intro st id h
    simp [MockProvider.get_review, h]
  · intro st id r h hlook
    simp [MockProvider.get_review, h, hlook]

/-- Witness for C8 amended: the armed create fails once on a fresh mock and
the flag is consumed; the armed get on the fixture state fails. -/
theorem claimC8_amended_witness :
    (MockProvider.create_review .GitLab (MockProvider.fail_next_create MockProvider.new)
        mockParamsA).1
      = .error (.ProviderOperationFailed (str "Simulated create failure")) ∧
    ((MockProvider.create_review .GitLab (MockProvider.fail_next_create MockProvider.new)
        mockParamsA).2).should_fail_create = false ∧
    MockProvider.get_review mockStArmed (str "!1")
      = .error (.ProviderOperationFailed (str "Simulated get failure")) :=
  ⟨(claimC8_amended.1 .GitLab (MockProvider.fail_next_create MockProvider.new)
      mockParamsA rfl).1,
   (claimC8_amended.1 .GitLab (MockProvider.fail_next_create MockProvider.new)
      mockParamsA rfl).2,
   claimC8_amended.2.2.2.2.1 mockStArmed (str "!1") rfl⟩

/-- C9: the mock review lifecycle: a successful create is read back
identically by get and found for its source branch; an update carrying only
the title changes the title and nothing else; the branch index for every
other branch is untouched by a create; and a branch with no entry in the
branch index, in particular any branch on a fresh mock, finds nothing. -/
theorem claimC9 :
    (∀ pt st params, st.should_fail_create = false → st.should_fail_get = false →
      ∃ r, (MockProvider.create_review pt st params).1 = .ok r ∧
        MockProvider.get_review (MockProvider.create_review pt st params).2 r.id = .ok r ∧
        MockProvider.find_review_for_branch (MockProvider.create_review pt st params).2
          params.source_branch = .ok (some r)) ∧
    (∀ st id t r, st.should_fail_update = false →
      alLookup id st.reviews = some r →
      (MockProvider.update_review st ⟨id, some t, none, none, none⟩).1
        = .ok { r with title := t }) ∧
    (∀ pt st params b, b ≠ params.source_branch →
      alLookup b ((MockProvider.create_review pt st params).2).branch_to_review
        = alLookup b st.branch_to_review) ∧
    (∀ st b, alLookup b st.branch_to_review = none →
      MockProvider.find_review_for_branch st b = .ok none) ∧
    (∀ b, MockProvider.find_review_for_branch MockProvider.new b = .ok none) := by
  refine ⟨?_, ?_, ?_, ?_, ?_⟩
  · intro pt st params h1 h2
    cases pt <;>
      · simp only [MockProvider.create_review, MockProvider.next_review_id, h1]
        refine ⟨_, rfl, ?_, ?_⟩
        · simp [MockProvider.get_review, h2, alLookup]
        · simp [MockProvider.find_review_for_branch, alLookup]
  · intro st id t r h1 h2
    simp [MockProvider.update_review, h1, h2]
  · intro pt st params b hb
    have hb2 : params.source_branch ≠ b := Ne.symm hb
    by_cases hf : st.should_fail_create = true <;> cases pt <;>
      simp [MockProvider.create_review, MockProvider.next_review_id, hf, alLookup, hb2]
  · intro st b h
    simp [MockProvider.find_review_for_branch, h]
  · intro b
    rfl

/-- Witness for C9 on a fresh mock: the fixture create round-trips, a
title-only update on the fixture state keeps the other fields, and an unused
branch name finds nothing. -/
theorem claimC9_witness :
    (∃ r, (MockProvider.create_review .GitLab MockProvider.new mockParamsA).1 = .ok r ∧
      MockProvider.get_review
        (MockProvider.create_review .GitLab MockProvider.new mockParamsA).2 r.id = .ok r ∧
      MockProvider.find_review_for_branch
        (MockProvider.create_review .GitLab MockProvider.new mockParamsA).2
        mockParamsA.source_branch = .ok (some r)) ∧
    (MockProvider.update_review mockStCreated
        ⟨str "!1", some (str "New"), none, none, none⟩).1
      = .ok { mockReviewA with title := str "New" } ∧
    MockProvider.find_review_for_branch MockProvider.new (str "other") = .ok none :=
  ⟨claimC9.1 .GitLab MockProvider.new mockParamsA rfl rfl,
   claimC9.2.1 mockStCreated (str "!1") (str "New") mockReviewA rfl (by decide),
   claimC9.2.2.2.2 (str "other")⟩

/-! ## Lemmas on the string primitives, for the URL extraction claims -/

theorem isPre_append (p r : Str) : isPre p (p ++ r) = true := by
  induction p with
  | nil => rfl
  | cons a as ih => simp [isPre, ih]

theorem isPre_cons_ne {a b : Char} (as bs : Str) (h : a ≠ b) :
    isPre (a :: as) (b :: bs) = false := by
  simp [isPre, h]

theorem dropPre_append (p r : Str) : dropPre p (p ++ r) = some r := by
  induction p with
  | nil => rfl
  | cons a as ih => simp [dropPre, ih]

theorem isPre_of_append_le (p a b : Str) (h : p.length ≤ a.length) :
    isPre p (a ++ b) = isPre p a := by
  induction p generalizing a with
  | nil => rfl
  | cons c cs ih =>
      cases a with
      | nil => simp at h
      | cons d ds =>
          simp only [List.cons_append, isPre]
          by_cases hcd : c = d
          · rw [if_pos hcd, if_pos hcd]
            exact ih ds (by simp at h ⊢; omega)
          · rw [if_neg hcd, if_neg hcd]

theorem isPre_longer_split (p a b : Str) (h : isPre p (a ++ b) = true)
    (hl : a.length < p.length) : ∃ q, p = a ++ q ∧ isPre q b = true := by
  induction a generalizing p with
  | nil => exact ⟨p, rfl, h⟩
  | cons d ds ih =>
      cases p with
      | nil => simp at hl
      | cons c cs =>
          simp only [List.cons_append, isPre] at h
          by_cases hcd : c = d
          · subst hcd
            rw [if_pos rfl] at h
            obtain ⟨q, hq, hq2⟩ := ih cs h (by simp at hl ⊢; omega)
            exact ⟨q, by rw [List.cons_append, hq], hq2⟩
          · rw [if_neg hcd] at h
            exact absurd h (by simp)

theorem isSuf_append (t pat : Str) : isSuf pat (t ++ pat) = true := by
  unfold isSuf
  rw [List.reverse_append]
  exact isPre_append _ _

theorem isSuf_skip (pat X path : Str) (h : pat.length ≤ path.length) :
    isSuf pat (X ++ path) = isSuf pat path := by
  unfold isSuf
  rw [List.reverse_append]
  exact isPre_of_append_le _ _ _ (by simpa using h)

theorem isSuf_through_slash (pat A path : Str) (hc : ¬ '/' ∈ pat)
    (hp : isSuf pat path = false) : isSuf pat (A ++ '/' :: path) = false := by
  by_cases hlen : pat.length ≤ path.length
  · rw [show A ++ '/' :: path = (A ++ ['/']) ++ path by simp]
    rw [isSuf_skip _ _ _ hlen]
    exact hp
  · cases hs : isSuf pat (A ++ '/' :: path) with
    | false => rfl
    | true =>
        exfalso
        unfold isSuf at hs
        rw [show (A ++ '/' :: path).reverse = path.reverse ++ '/' :: A.reverse by
          simp] at hs
        obtain ⟨q, hq, hq2⟩ := isPre_longer_split _ _ _ hs (by simp; omega)
        cases q with
        | nil =>
            have hlq : pat.reverse.length = path.reverse.length := by rw [hq]; simp
            simp at hlq
            omega
        | cons c cs =>
            have hcq : c = '/' := by
              simp only [isPre] at hq2
              by_cases hcs : c = '/'
              · exact hcs
              · rw [if_neg hcs] at hq2
                exact absurd hq2 (by simp)
            subst hcq
            apply hc
            have : '/' ∈ pat.reverse := by
              rw [hq]
              simp
            simpa using this

theorem isSuf_ends_slash (pat s : Str) (c : Char) (hpat : pat.getLast? = some c)
    (hs : s.getLast? ≠ some c) : isSuf pat s = false := by
  cases hq : isSuf pat s with
  | false => rfl
  | true =>
      exfalso
      unfold isSuf at hq
      cases hpr : pat.reverse with
      | nil =>
          rw [show pat = [] by simpa using hpr] at hpat
          simp at hpat
      | cons a as =>
          have ha : a = c := by
            have := List.head?_reverse pat
            rw [hpr, hpat] at this
            simpa using this
          subst ha
          cases hsr : s.reverse with
          | nil => rw [hpr, hsr] at hq; simp [isPre] at hq
          | cons b bs =>
              have hb : s.getLast? = some b := by
                have := List.head?_reverse s
                rw [hsr] at this
                simpa using this.symm
              rw [hpr, hsr] at hq
              simp only [isPre] at hq
              by_cases hab : a = b
              · exact hs (hab ▸ hb)
              · rw [if_neg hab] at hq
                exact absurd hq (by simp)

theorem trimEndStrFuel_no (pat s : Str) (f : Nat) (h : isSuf pat s = false) :
    trimEndStrFuel pat f s = s := by
  cases f with
  | zero => rfl
  | succ n => simp [trimEndStrFuel, h]

theorem trimEndStr_no (pat s : Str) (h : isSuf pat s = false) :
    trimEndStr pat s = s := trimEndStrFuel_no pat s s.length h

theorem trimEndStr_once (pat t : Str) (hne : pat ≠ []) (h : isSuf pat t = false) :
    trimEndStr pat (t ++ pat) = t := by
  unfold trimEndStr
  cases hp : pat with
  | nil => exact absurd hp hne
  | cons c cs =>
      rw [← hp]
      have hlen : (t ++ pat).length = t.length + pat.length := by simp
      have hpos : 0 < pat.length := by rw [hp]; simp
      obtain ⟨m, hm⟩ : ∃ m, (t ++ pat).length = m + 1 := by
        refine ⟨(t ++ pat).length - 1, ?_⟩
        omega
      rw [hm]
      rw [show trimEndStrFuel pat (m + 1) (t ++ pat)
          = if !pat.isEmpty && isSuf pat (t ++ pat) then
              trimEndStrFuel pat m ((t ++ pat).take ((t ++ pat).length - pat.length))
            else (t ++ pat) from rfl]
      rw [isSuf_append]
      have hne2 : pat.isEmpty = false := by
        rw [hp]; rfl
      rw [hne2]
      simp only [Bool.not_false, Bool.true_and, if_pos]
      rw [show (t ++ pat).length - pat.length = t.length by omega]
      rw [List.take_left]
      exact trimEndStrFuel_no pat t m h

theorem trimEndChar_no (c : Char) (s : Str) (h : s.getLast? ≠ some c) :
    trimEndChar c s = s := by
  unfold trimEndChar
  cases hsr : s.reverse with
  | nil => simp [show s = [] by simpa using hsr]
  | cons b bs =>
      have hb : s.getLast? = some b := by
        have := List.head?_reverse s
        rw [hsr] at this
        simpa using this.symm
      have hbc : ¬ b = c := fun hbc => h (hbc ▸ hb)
      rw [List.dropWhile_cons]
      rw [if_neg (by simp [hbc])]
      rw [← hsr, List.reverse_reverse]

theorem trimEndChar_one (c : Char) (s : Str) (h : s.getLast? ≠ some c) :
    trimEndChar c (s ++ [c]) = s := by
  unfold trimEndChar
  rw [show (s ++ [c]).reverse = c :: s.reverse by simp]
  rw [List.dropWhile_cons]
  rw [if_pos (by simp)]
  cases hsr : s.reverse with
  | nil => simp [show s = [] by simpa using hsr]
  | cons b bs =>
      have hb : s.getLast? = some b := by
        have := List.head?_reverse s
        rw [hsr] at this
        simpa using this.symm
      have hbc : ¬ b = c := fun hbc => h (hbc ▸ hb)
      rw [List.dropWhile_cons]
      rw [if_neg (by simp [hbc])]
      rw [← hsr, List.reverse_reverse]

theorem findSub_boundary (c : Char) (cs pre rest : Str) (hc : ¬ c ∈ pre) :
    findSub (c :: cs) (pre ++ (c :: (cs ++ rest))) = some pre.length := by
  induction pre with
  | nil =>
      simp only [List.nil_append]
      rw [show findSub (c :: cs) (c :: (cs ++ rest))
          = if isPre (c :: cs) (c :: (cs ++ rest)) then some 0
            else (findSub (c :: cs) (cs ++ rest)).map (· + 1) from rfl]
      rw [show (c :: (cs ++ rest)) = (c :: cs) ++ rest by simp]
      rw [isPre_append]
      rfl
  | cons d ds ih =>
      have hdc : ¬ c = d := fun hcd => hc (by simp [hcd])
      have hds : ¬ c ∈ ds := fun hm => hc (by simp [hm])
      simp only [List.cons_append]
      rw [show findSub (c :: cs) (d :: (ds ++ (c :: (cs ++ rest))))
          = if isPre (c :: cs) (d :: (ds ++ (c :: (cs ++ rest)))) then some 0
            else (findSub (c :: cs) (ds ++ (c :: (cs ++ rest)))).map (· + 1) from rfl]
      rw [isPre_cons_ne _ _ (fun hcd => hdc hcd)]
      rw [if_neg (by simp)]
      rw [ih hds]
      rfl

theorem takeUntil_boundary (c : Char) (host rest : Str) (hc : ¬ c ∈ host) :
    takeUntil c (host ++ c :: rest) = host := by
  unfold takeUntil
  induction host with
  | nil => simp [List.takeWhile_cons]
  | cons d ds ih =>
      have hdc : ¬ d = c := fun hdc => hc (by simp [hdc])
      have hds : ¬ c ∈ ds := fun hm => hc (by simp [hm])
      rw [List.cons_append, List.takeWhile_cons]
      rw [if_pos (by simp [hdc])]
      rw [ih hds]

theorem splitOnChar_no (c : Char) (s : Str) (h : ¬ c ∈ s) :
    splitOnChar c s = [s] := by
  induction s with
  | nil => rfl
  | cons d ds ih =>
      have hdc : ¬ d = c := fun hdc => h (by simp [hdc])
      have hds : ¬ c ∈ ds := fun hm => h (by simp [hm])
      rw [show splitOnChar c (d :: ds)
          = if d = c then [] :: splitOnChar c ds
            else match splitOnChar c ds with
              | [] => [[d]]
              | h :: r => (d :: h) :: r from rfl]
      rw [if_neg hdc, ih hds]

theorem splitOnChar_boundary (c : Char) (host rest : Str) (hc : ¬ c ∈ host) :
    splitOnChar c (host ++ c :: rest) = host :: splitOnChar c rest := by
  induction host with
  | nil =>
      simp only [List.nil_append]
      rw [show splitOnChar c (c :: rest)
          = if c = c then [] :: splitOnChar c rest
            else match splitOnChar c rest with
              | [] => [[c]]
              | h :: r => (c :: h) :: r from rfl]
      rw [if_pos rfl]
  | cons d ds ih =>
      have hdc : ¬ d = c := fun hdc => hc (by simp [hdc])
      have hds : ¬ c ∈ ds := fun hm => hc (by simp [hm])
      rw [List.cons_append]
      rw [show splitOnChar c (d :: (ds ++ c :: rest))
          = if d = c then [] :: splitOnChar c (ds ++ c :: rest)
            else match splitOnChar c (ds ++ c :: rest) with
              | [] => [[d]]
              | h :: r => (d :: h) :: r from rfl]
      rw [if_neg hdc, ih hds]

theorem findSub_sep (scheme rest : Str) (hcolon : ¬ ':' ∈ scheme) :
    findSub (str "://") (scheme ++ (str "://" ++ rest)) = some scheme.length :=
  findSub_boundary ':' (str "//") scheme rest hcolon

theorem findSub_slash (host path : Str) (hHost : ¬ '/' ∈ host) :
    findSub (str "/") (host ++ ('/' :: path)) = some host.length :=
  findSub_boundary '/' [] host path hHost

theorem drop_scheme_sep (scheme rest : Str) (h3 : scheme.length + 3
      = (scheme ++ str "://").length) :
    (scheme ++ (str "://" ++ rest)).drop (scheme.length + 3) = rest := by
  rw [show scheme ++ (str "://" ++ rest) = (scheme ++ str "://") ++ rest by simp]
  rw [h3]
  exact List.drop_left _ _

theorem drop_host_slash (host ppath : Str) :
    (host ++ ('/' :: ppath)).drop (host.length + 1) = ppath := by
  rw [show host ++ ('/' :: ppath) = (host ++ ['/']) ++ ppath by simp]
  rw [show host.length + 1 = (host ++ ['/']).length by simp]
  exact List.drop_left _ _

theorem extract_base_url_https (scheme host tpath ppath : Str)
    (hcolon : ¬ ':' ∈ scheme)
    (h3 : scheme.length + 3 = (scheme ++ str "://").length)
    (hHost : ¬ '/' ∈ host)
    (hGit : dropPre (str "git@") (scheme ++ (str "://" ++ (host ++ ('/' :: tpath)))) = none)
    (hPre : (isPre (str "https://") (scheme ++ (str "://" ++ (host ++ ('/' :: tpath))))
        || isPre (str "http://") (scheme ++ (str "://" ++ (host ++ ('/' :: tpath))))) = true)
    (hTrim : trimEndChar '/' (trimEndStr (str ".git")
          (scheme ++ (str "://" ++ (host ++ ('/' :: tpath)))))
        = scheme ++ (str "://" ++ (host ++ ('/' :: ppath)))) :
    ProviderType.extract_base_url (scheme ++ (str "://" ++ (host ++ ('/' :: tpath))))
      = .ok (scheme ++ (str "://" ++ host)) := by
  unfold ProviderType.extract_base_url
  simp only [hGit]
  rw [if_pos hPre]
  rw [hTrim]
  simp only [findSub_sep _ _ hcolon]
  simp only [drop_scheme_sep _ _ h3]
  simp only [findSub_slash _ _ hHost]
  simp only [List.take_left]
  simp [List.append_assoc]

theorem extract_project_path_https (scheme host tpath ppath : Str)
    (hcolon : ¬ ':' ∈ scheme)
    (h3 : scheme.length + 3 = (scheme ++ str "://").length)
    (hHost : ¬ '/' ∈ host)
    (hGit : dropPre (str "git@") (scheme ++ (str "://" ++ (host ++ ('/' :: tpath)))) = none)
    (hPre : (isPre (str "https://") (scheme ++ (str "://" ++ (host ++ ('/' :: tpath))))
        || isPre (str "http://") (scheme ++ (str "://" ++ (host ++ ('/' :: tpath))))) = true)
    (hTrim : trimEndChar '/' (trimEndStr (str ".git")
          (scheme ++ (str "://" ++ (host ++ ('/' :: tpath)))))
        = scheme ++ (str "://" ++ (host ++ ('/' :: ppath)))) :
    ProviderType.extract_project_path (scheme ++ (str "://" ++ (host ++ ('/' :: tpath))))
      = .ok ppath := by
  unfold ProviderType.extract_project_path
  simp only [hGit]
  unfold ProviderType.project_path_https
  rw [if_pos hPre]
  rw [hTrim]
  simp only [findSub_sep _ _ hcolon]
  simp only [drop_scheme_sep _ _ h3]
  simp only [findSub_slash _ _ hHost]
  simp only [drop_host_slash]

theorem extract_base_url_ssh (host tail : Str) (hc : ¬ ':' ∈ host) :
    ProviderType.extract_base_url (str "git@" ++ (host ++ (':' :: tail)))
      = .ok (str "https://" ++ host) := by
  unfold ProviderType.extract_base_url
  rw [dropPre_append]
  dsimp only
  rw [takeUntil_boundary ':' host tail hc]

theorem extract_project_path_ssh (host ptail : Str) (hhc : ¬ ':' ∈ host)
    (hpc : ¬ ':' ∈ ptail) :
    ProviderType.extract_project_path (str "git@" ++ (host ++ (':' :: ptail)))
      = .ok (trimEndStr (str ".git") ptail) := by
  unfold ProviderType.extract_project_path
  rw [dropPre_append]
  dsimp only
  rw [splitOnChar_boundary ':' host ptail hhc, splitOnChar_no ':' ptail hpc]
  rfl

theorem trim_shape_plain (A path : Str)
    (hPathNe : path ≠ [])
    (hPathSlash : path.getLast? ≠ some '/')
    (hPathGit : isSuf (str ".git") path = false) :
    trimEndChar '/' (trimEndStr (str ".git") (A ++ ('/' :: path))) = A ++ ('/' :: path) := by
  have hsuf : isSuf (str ".git") (A ++ ('/' :: path)) = false :=
    isSuf_through_slash _ _ _ (by decide) hPathGit
  rw [trimEndStr_no _ _ hsuf]
  apply trimEndChar_no
  rw [show A ++ ('/' :: path) = (A ++ ['/']) ++ path by simp]
  rw [List.getLast?_append_of_ne_nil _ hPathNe]
  exact hPathSlash

theorem trim_shape_git (A path : Str)
    (hPathNe : path ≠ [])
    (hPathSlash : path.getLast? ≠ some '/')
    (hPathGit : isSuf (str ".git") path = false) :
    trimEndChar '/' (trimEndStr (str ".git") ((A ++ ('/' :: path)) ++ str ".git"))
      = A ++ ('/' :: path) := by
  have hsuf : isSuf (str ".git") (A ++ ('/' :: path)) = false :=
    isSuf_through_slash _ _ _ (by decide) hPathGit
  rw [trimEndStr_once _ _ (by decide) hsuf]
  apply trimEndChar_no
  rw [show A ++ ('/' :: path) = (A ++ ['/']) ++ path by simp]
  rw [List.getLast?_append_of_ne_nil _ hPathNe]
  exact hPathSlash

theorem trim_shape_slash (A path : Str)
    (hPathNe : path ≠ [])
    (hPathSlash : path.getLast? ≠ some '/') :
    trimEndChar '/' (trimEndStr (str ".git") ((A ++ ('/' :: path)) ++ str "/"))
      = A ++ ('/' :: path) := by
  have hsuf : isSuf (str ".git") ((A ++ ('/' :: path)) ++ str "/") = false := by
    apply isSuf_ends_slash _ _ 't' (by decide)
    rw [List.getLast?_append_of_ne_nil _ (show str "/" ≠ [] by decide)]
    decide
  rw [trimEndStr_no _ _ hsuf]
  rw [show (A ++ ('/' :: path)) ++ str "/" = (A ++ ('/' :: path)) ++ ['/'] from rfl]
  apply trimEndChar_one
  rw [show A ++ ('/' :: path) = (A ++ ['/']) ++ path by simp]
  rw [List.getLast?_append_of_ne_nil _ hPathNe]
  exact hPathSlash

theorem trim_shape_gitslash (A path : Str) :
    trimEndChar '/' (trimEndStr (str ".git") ((A ++ ('/' :: path)) ++ str ".git/"))
      = (A ++ ('/' :: path)) ++ str ".git" := by
  have e1 : (A ++ ('/' :: path)) ++ str ".git/"
      = ((A ++ ('/' :: path)) ++ str ".git") ++ ['/'] := by
    rw [show str ".git/" = str ".git" ++ ['/'] by decide, ← List.append_assoc]
  rw [e1]
  have hsuf : isSuf (str ".git") (((A ++ ('/' :: path)) ++ str ".git") ++ ['/']) = false := by
    apply isSuf_ends_slash _ _ 't' (by decide)
    rw [List.getLast?_append_of_ne_nil _ (show ['/'] ≠ [] by decide)]
    decide
  rw [trimEndStr_no _ _ hsuf]
  apply trimEndChar_one
  rw [List.getLast?_append_of_ne_nil _ (show str ".git" ≠ [] by decide)]
  decide

theorem dropPre_git_scheme (scheme X : Str)
    (hs : scheme = str "https" ∨ scheme = str "http") :
    dropPre (str "git@") (scheme ++ X) = none := by
  rcases hs with h | h <;> subst h <;> rfl

theorem isPre_scheme_sep (scheme X : Str)
    (hs : scheme = str "https" ∨ scheme = str "http") :
    (isPre (str "https://") (scheme ++ (str "://" ++ X))
      || isPre (str "http://") (scheme ++ (str "://" ++ X))) = true := by
  rcases hs with h | h <;> subst h
  · rw [show isPre (str "https://") (str "https" ++ (str "://" ++ X)) = true from
      isPre_append (str "https://") X]
    rfl
  · rw [show isPre (str "http://") (str "http" ++ (str "://" ++ X)) = true from
      isPre_append (str "http://") X]
    rw [show isPre (str "https://") (str "http" ++ (str "://" ++ X)) = false from rfl]
    rfl

/-- Counterexample for C7: for an SSH remote with a trailing slash the source
strips only a trailing .git from the project path, so the trailing slash is
kept, contradicting the claim that it is stripped for every supported shape. -/
theorem claimC7_counterexample :
    ProviderType.extract_project_path (str "git@git-host.example:grp/sub/repo/")
      = .ok (str "grp/sub/repo/") ∧
    str "grp/sub/repo/" ≠ str "grp/sub/repo" := by decide

/-- C7 amended: over hosts without slash or colon and nonempty paths that end
in neither a slash nor .git: for HTTPS-style URLs with no suffix, with a
trailing .git, or with a trailing slash, extract_base_url yields
scheme://host and extract_project_path yields the path with internal slashes
preserved; for SSH-style URLs with or without a trailing .git,
extract_base_url yields https://host and extract_project_path yields the
path. Divergences from the original claim: an SSH URL with a trailing slash
keeps the slash in the project path, and an HTTPS URL ending in .git/ keeps
the .git in the project path. -/
theorem claimC7_amended (scheme host path : Str)
    (hs : scheme = str "https" ∨ scheme = str "http")
    (hHostSlash : ¬ '/' ∈ host) (hHostColon : ¬ ':' ∈ host)
    (hPathNe : path ≠ [])
    (hPathSlash : path.getLast? ≠ some '/')
    (hPathGit : isSuf (str ".git") path = false)
    (hPathColon : ¬ ':' ∈ path) :
    (ProviderType.extract_base_url
        (scheme ++ (str "://" ++ (host ++ ('/' :: (path ++ str ".git")))))
      = .ok (scheme ++ (str "://" ++ host))) ∧
    (ProviderType.extract_project_path
        (scheme ++ (str "://" ++ (host ++ ('/' :: (path ++ str ".git")))))
      = .ok path) ∧
    (ProviderType.extract_base_url (scheme ++ (str "://" ++ (host ++ ('/' :: path))))
      = .ok (scheme ++ (str "://" ++ host))) ∧
    (ProviderType.extract_project_path (scheme ++ (str "://" ++ (host ++ ('/' :: path))))
      = .ok path) ∧
    (ProviderType.extract_base_url
        (scheme ++ (str "://" ++ (host ++ ('/' :: (path ++ str "/")))))
      = .ok (scheme ++ (str "://" ++ host))) ∧
    (ProviderType.extract_project_path
        (scheme ++ (str "://" ++ (host ++ ('/' :: (path ++ str "/")))))
      = .ok path) ∧
    (ProviderType.extract_base_url (str "git@" ++ (host ++ (':' :: path)))
      = .ok (str "https://" ++ host)) ∧
    (ProviderType.extract_project_path (str "git@" ++ (host ++ (':' :: path)))
      = .ok path) ∧
    (ProviderType.extract_base_url (str "git@" ++ (host ++ (':' :: (path ++ str ".git"))))
      = .ok (str "https://" ++ host)) ∧
    (ProviderType.extract_project_path (str "git@" ++ (host ++ (':' :: (path ++ str ".git"))))
      = .ok path) ∧
    (ProviderType.extract_project_path (str "git@" ++ (host ++ (':' :: (path ++ str "/"))))
      = .ok (path ++ str "/")) ∧
    (ProviderType.extract_project_path
        (scheme ++ (str "://" ++ (host ++ ('/' :: (path ++ str ".git/")))))
      = .ok (path ++ str ".git")) := by
  have hcolon : ¬ ':' ∈ scheme := by rcases hs with h | h <;> subst h <;> decide
  have h3 : scheme.length + 3 = (scheme ++ str "://").length := by
    rcases hs with h | h <;> subst h <;> decide
  have hTrimA : trimEndChar '/' (trimEndStr (str ".git")
        (scheme ++ (str "://" ++ (host ++ ('/' :: path)))))
      = scheme ++ (str "://" ++ (host ++ ('/' :: path))) := by
    have e : scheme ++ (str "://" ++ (host ++ ('/' :: path)))
        = (scheme ++ (str "://" ++ host)) ++ ('/' :: path) := by simp
    rw [e]
    exact trim_shape_plain _ _ hPathNe hPathSlash hPathGit
  have hTrimB : trimEndChar '/' (trimEndStr (str ".git")
        (scheme ++ (str "://" ++ (host ++ ('/' :: (path ++ str ".git"))))))
      = scheme ++ (str "://" ++ (host ++ ('/' :: path))) := by
    have e1 : scheme ++ (str "://" ++ (host ++ ('/' :: (path ++ str ".git"))))
        = ((scheme ++ (str "://" ++ host)) ++ ('/' :: path)) ++ str ".git" := by simp
    have e2 : scheme ++ (str "://" ++ (host ++ ('/' :: path)))
        = (scheme ++ (str "://" ++ host)) ++ ('/' :: path) := by simp
    rw [e1, e2]
    exact trim_shape_git _ _ hPathNe hPathSlash hPathGit
  have hTrimC : trimEndChar '/' (trimEndStr (str ".git")
        (scheme ++ (str "://" ++ (host ++ ('/' :: (path ++ str "/"))))))
      = scheme ++ (str "://" ++ (host ++ ('/' :: path))) := by
    have e1 : scheme ++ (str "://" ++ (host ++ ('/' :: (path ++ str "/"))))
        = ((scheme ++ (str "://" ++ host)) ++ ('/' :: path)) ++ str "/" := by simp
    have e2 : scheme ++ (str "://" ++ (host ++ ('/' :: path)))
        = (scheme ++ (str "://" ++ host)) ++ ('/' :: path) := by simp
    rw [e1, e2]
    exact trim_shape_slash _ _ hPathNe hPathSlash
  have hTrimG : trimEndChar '/' (trimEndStr (str ".git")
        (scheme ++ (str "://" ++ (host ++ ('/' :: (path ++ str ".git/"))))))
      = scheme ++ (str "://" ++ (host ++ ('/' :: (path ++ str ".git")))) := by
    have e1 : scheme ++ (str "://" ++ (host ++ ('/' :: (path ++ str ".git/"))))
        = ((scheme ++ (str "://" ++ host)) ++ ('/' :: path)) ++ str ".git/" := by simp
    have e2 : scheme ++ (str "://" ++ (host ++ ('/' :: (path ++ str ".git"))))
        = ((scheme ++ (str "://" ++ host)) ++ ('/' :: path)) ++ str ".git" := by simp
    rw [e1, e2]
    exact trim_shape_gitslash _ _
  have hpcGit : ¬ ':' ∈ path ++ str ".git" := by
    intro hm
    rcases List.mem_append.mp hm with h | h
    · exact hPathColon h
    · exact absurd h (by decide)
  have hpcSlash : ¬ ':' ∈ path ++ str "/" := by
    intro hm
    rcases List.mem_append.mp hm with h | h
    · exact hPathColon h
    · exact absurd h (by decide)
  have hsufSlash : isSuf (str ".git") (path ++ str "/") = false := by
    apply isSuf_ends_slash _ _ 't' (by decide)
    rw [List.getLast?_append_of_ne_nil _ (show str "/" ≠ [] by decide)]
    decide
  refine ⟨?_, ?_, ?_, ?_, ?_, ?_, ?_, ?_, ?_, ?_, ?_, ?_⟩
  · exact extract_base_url_https scheme host (path ++ str ".git") path hcolon h3
      hHostSlash (dropPre_git_scheme _ _ hs) (isPre_scheme_sep _ _ hs) hTrimB
  · exact extract_project_path_https scheme host (path ++ str ".git") path hcolon h3
      hHostSlash (dropPre_git_scheme _ _ hs) (isPre_scheme_sep _ _ hs) hTrimB
  · exact extract_base_url_https scheme host path path hcolon h3
      hHostSlash (dropPre_git_scheme _ _ hs) (isPre_scheme_sep _ _ hs) hTrimA
  · exact extract_project_path_https scheme host path path hcolon h3
      hHostSlash (dropPre_git_scheme _ _ hs) (isPre_scheme_sep _ _ hs) hTrimA
  · exact extract_base_url_https scheme host (path ++ str "/") path hcolon h3
      hHostSlash (dropPre_git_scheme _ _ hs) (isPre_scheme_sep _ _ hs) hTrimC
  · exact extract_project_path_https scheme host (path ++ str "/") path hcolon h3
      hHostSlash (dropPre_git_scheme _ _ hs) (isPre_scheme_sep _ _ hs) hTrimC
  · exact extract_base_url_ssh host path hHostColon
  · have h := extract_project_path_ssh host path hHostColon hPathColon
    rw [trimEndStr_no _ _ hPathGit] at h
    exact h
  · exact extract_base_url_ssh host (path ++ str ".git") hHostColon
  · have h := extract_project_path_ssh host (path ++ str ".git") hHostColon hpcGit
    rw [trimEndStr_once _ _ (by decide) hPathGit] at h
    exact h
  · have h := extract_project_path_ssh host (path ++ str "/") hHostColon hpcSlash
    rw [trimEndStr_no _ _ hsufSlash] at h
    exact h
  · exact extract_project_path_https scheme host (path ++ str ".git/")
      (path ++ str ".git") hcolon h3 hHostSlash (dropPre_git_scheme _ _ hs)
      (isPre_scheme_sep _ _ hs) hTrimG

/-- Witness for C7 amended at the spec scenario
https://git-host.example/grp/sub/repo.git. -/
theorem claimC7_amended_witness :
    ProviderType.extract_base_url (str "https://git-host.example/grp/sub/repo.git")
      = .ok (str "https://git-host.example") ∧
    ProviderType.extract_project_path (str "https://git-host.example/grp/sub/repo.git")
      = .ok (str "grp/sub/repo") :=
  ⟨(claimC7_amended (str "https") (str "git-host.example") (str "grp/sub/repo")
      (Or.inl rfl) (by decide) (by decide) (by decide) (by decide) (by decide)
      (by decide)).1,
   (claimC7_amended (str "https") (str "git-host.example") (str "grp/sub/repo")
      (Or.inl rfl) (by decide) (by decide) (by decide) (by decide) (by decide)
      (by decide)).2.1⟩

/-! ## Concrete evaluations of the embedded definitions -/

example : containsSub (str "gitlab") (str "xgitlab.com") = true := by decide
example : containsSub (str "gitlab") (str "example.com") = false := by decide
example : trimEndStr (str ".git") (str "a/b.git") = str "a/b" := by decide
example : trimEndStr (str ".git") (str "a/b.git/") = str "a/b.git/" := by decide
example : trimEndChar '/' (str "a/b//") = str "a/b" := by decide
example : splitOnChar ':' (str "host:a/b") = [str "host", str "a/b"] := by decide
example : natToStr 42 = str "42" := by decide
example : parseNat (str "42") = some 42 := by decide
example : parseNat (str "!42") = none := by decide

example : ProviderType.from_remote_url (str "https://gitlab.example.com/user/repo.git")
    = .ok .GitLab := by decide
example : ProviderType.from_remote_url (str "https://example.com/repo.git")
    = .error (.ProviderDetectionFailed (str "https://example.com/repo.git")) := by decide
example : ProviderType.extract_base_url (str "https://gitlab.com/user/repo.git")
    = .ok (str "https://gitlab.com") := by decide
example : ProviderType.extract_base_url (str "git@gitlab.example.com:user/repo.git")
    = .ok (str "https://gitlab.example.com") := by decide
example : ProviderType.extract_project_path (str "https://gitlab.com/group/subgroup/repo.git")
    = .ok (str "group/subgroup/repo") := by decide
example : ProviderType.extract_project_path (str "git@gitlab.com:owner/repo.git")
    = .ok (str "owner/repo") := by decide
example : ProviderType.extract_project_path (str "git@host.example:grp/repo/")
    = .ok (str "grp/repo/") := by decide
example : ProviderType.extract_project_path (str "https://host.example/grp/repo.git/")
    = .ok (str "grp/repo.git") := by decide

example :
    (MockProvider.create_review .GitLab MockProvider.new mockParamsA).1
      = .ok mockReviewA := by decide

end Basalt
